import Mathlib

/-!
Verification development for the CogView4-FastAPI request-orchestration core.

The Python source (src/utils.py, src/main.py, src/processing.py, src/worker.py)
is shallowly embedded below: pure helpers become Lean functions, the batch
manager becomes explicit state passing over association lists, and the worker
paths become trace-producing functions parameterised by the opaque pipeline's
outputs and by failure outcomes.  Strings that are manipulated character by
character (size strings, base64 payloads, chunk ids) are modelled as `List Char`.
-/

/-- Python strings handled character-wise. -/
abbrev PyStr := List Char

namespace CogView4

/-! ## Python `int()` and `str.split` fragment (src/utils.py uses the builtins)

`parse_size` calls `size_str.split('x')` and the builtin `int`.  Python's
`int` on a string tolerates surrounding ASCII whitespace, one optional sign,
and single underscores between digits; we model that fragment (for ASCII
inputs, which is all the claims need). -/

/-- The ASCII whitespace characters stripped by Python's `int` conversion
(and matched by the regex class `\s`). -/
def isPySpace (c : Char) : Bool :=
  c = ' ' || c = '\t' || c = '\n' || c = '\r' || c = '\x0b' || c = '\x0c'

/-- Numeric value of an ASCII digit character. -/
def digitVal (c : Char) : Nat := c.toNat - '0'.toNat

/-- Digit-run parser: after at least one digit has been consumed, Python's
`int` accepts further digits, with single underscores allowed only between
two digits. -/
def digitsRun (acc : Nat) : PyStr → Option Nat
  | [] => some acc
  | c :: rest =>
      if c.isDigit then digitsRun (10 * acc + digitVal c) rest
      else if c = '_' then
        match rest with
        | c2 :: rest2 =>
            if c2.isDigit then digitsRun (10 * acc + digitVal c2) rest2 else none
        | [] => none
      else none

/-- Nonempty digit sequence (underscore-separated) accepted by Python `int`. -/
def digitsUnd : PyStr → Option Nat
  | [] => none
  | c :: rest => if c.isDigit then digitsRun (digitVal c) rest else none

/-- Drop leading and trailing Python whitespace. -/
def stripWs (s : PyStr) : PyStr :=
  ((s.dropWhile isPySpace).reverse.dropWhile isPySpace).reverse

/-- Python's builtin `int(str)` on ASCII input: optional surrounding
whitespace, optional single sign, then digits with optional single
underscores between digits; `none` models a raised `ValueError`. -/
def pyInt (s : PyStr) : Option Int :=
  match stripWs s with
  | [] => none
  | c :: rest =>
      if c = '+' then (digitsUnd rest).map Int.ofNat
      else if c = '-' then (digitsUnd rest).map (fun n => -(n : Int))
      else (digitsUnd (c :: rest)).map Int.ofNat

/-- Python `str.split(sep)` for a one-character separator: splits at every
occurrence, keeping empty pieces. -/
def pySplit (sep : Char) : PyStr → List PyStr
  | [] => [[]]
  | c :: rest =>
      let r := pySplit sep rest
      if c = sep then [] :: r
      else
        match r with
        | [] => [[c]]
        | p :: ps => (c :: p) :: ps

/-! ## `parse_size` (src/utils.py lines 47-54)

    def parse_size(size_str: str) -> tuple:
        try:
            width, height = map(int, size_str.split('x'))
            return width, height
        except Exception:
            return 1024, 1024

The tuple unpacking raises unless the split yields exactly two pieces; `int`
raises on an unparsable piece; any exception yields the 1024x1024 default. -/

/-- Embedding of `parse_size`. -/
def parse_size (size_str : PyStr) : Int × Int :=
  match pySplit 'x' size_str with
  | [a, b] =>
      match pyInt a, pyInt b with
      | some w, some h => (w, h)
      | _, _ => (1024, 1024)
  | _ => (1024, 1024)

/-! ## The regex `^\d+x\d+$` of the spec

A string matches iff it is a nonempty digit run, then `x`, then a nonempty
digit run.  Since `x` is not a digit, the greedy `\d+` is exactly the leading
digit run, giving the decidable form below. -/

/-- Decidable form of matching `^\d+x\d+$` (with `\d` the ASCII digits). -/
def matchesSizeRe (s : PyStr) : Bool :=
  let a := s.takeWhile Char.isDigit
  let r := s.dropWhile Char.isDigit
  decide (a ≠ []) && decide (r.head? = some 'x') &&
    decide (r.tail ≠ []) && r.tail.all Char.isDigit

/-- The number written by a plain digit run (most significant digit first). -/
def digitsNum (s : PyStr) : Nat :=
  s.foldl (fun acc c => 10 * acc + digitVal c) 0

/-! ## Schemas (src/schemas.py)

Pydantic/dataclass records.  `n`, `num_inference_steps` are validated
non-negative integers (`ge=1`, `ge=10`), modelled as `Nat`; `width`/`height`
come from `parse_size` and may be any integer; `guidance_scale` is a numeric
value compared only for equality, modelled as `Rat`; wall-clock timestamps
are modelled as `Nat` ticks. -/

/-- `ImageGenerationRequest` — the client-visible request body. -/
structure ImageGenerationRequest where
  prompt : String
  negative_prompt : Option String
  n : Nat
  size : PyStr
  quality : String
  style : String
  response_format : String
  user : Option String
  stream : Bool
  guidance_scale : Rat
  num_inference_steps : Nat
  seed : Option Int
  deriving DecidableEq, Repr

/-- `GenerationRequest` — the internal per-request record handed to workers. -/
structure GenerationRequest where
  request_id : String
  prompt : String
  negative_prompt : Option String
  width : Int
  height : Int
  guidance_scale : Rat
  num_inference_steps : Nat
  num_images : Nat
  stream : Bool
  seed : Option Int
  deriving DecidableEq, Repr

/-- `BatchedGenerationRequest` — the coalesced multi-prompt record.  The
`seeds` dataclass field defaults to Python `None`, hence the outer `Option`. -/
structure BatchedGenerationRequest where
  batch_id : String
  prompts : List String
  negative_prompts : List (Option String)
  request_ids : List String
  num_images : Nat
  width : Int
  height : Int
  guidance_scale : Rat
  num_inference_steps : Nat
  stream : Bool
  seeds : Option (List (Option Int))
  deriving DecidableEq, Repr

/-- Data of one `streaming_step` result event (the float `timestamp` field
carries wall-clock noise and is not modelled). -/
structure StreamStepData where
  step : Nat
  progress : Rat
  image : PyStr
  is_final : Bool
  is_chunked : Bool
  chunk_id : Option PyStr
  chunk_index : Option Nat
  total_chunks : Option Nat
  image_index : Nat
  total_images : Nat
  seed : Option Int
  deriving DecidableEq, Repr

/-- Payload of a `GenerationResult`, distinguished by `result_type`:
`completed` with `data=None` (streaming), `completed` with images+seed
(non-streaming), `error`, or `streaming_step`. -/
inductive ResultPayload where
  | completedNone
  | completed (images : List String) (seed : Int)
  | error (msg : String)
  | streamingStep (d : StreamStepData)
  deriving DecidableEq, Repr

/-- `GenerationResult` — one event on the shared result queue. -/
structure GenerationResult where
  request_id : String
  payload : ResultPayload
  deriving DecidableEq, Repr

/-- A result event is terminal when its `result_type` is `completed` or
`error` (anything but `streaming_step`). -/
def GenerationResult.isTerminal (r : GenerationResult) : Bool :=
  match r.payload with
  | .streamingStep _ => false
  | _ => true

/-! ## HTTP admission (src/main.py lines 162-197, `create_image`)

The endpoint parses the size, rejects with HTTP 400 when
`width * height * n >= MAX_TOTAL_PIXELS`, and otherwise builds the
`request_params` dictionary and dispatches to the streaming or the
non-streaming path.  The outcome type records exactly that decision and the
parameter tuple forwarded to the worker pool. -/

/-- The `request_params` dictionary built by `create_image` in both the
streaming and the non-streaming branch. -/
structure RequestParams where
  prompt : String
  negative_prompt : Option String
  width : Int
  height : Int
  guidance_scale : Rat
  num_inference_steps : Nat
  num_images : Nat
  seed : Option Int
  deriving DecidableEq, Repr

/-- Outcome of `POST /v1/images/generations`: either HTTP 400 before any
worker involvement, or dispatch to the SSE / JSON generation path with the
forwarded parameter tuple. -/
inductive CreateImageOutcome where
  | rejected400
  | streamSSE (params : RequestParams)
  | jsonResponse (params : RequestParams)
  deriving DecidableEq, Repr

/-- Embedding of the admission/dispatch logic of `create_image`
(`config.MAX_TOTAL_PIXELS` is the `max_total_pixels` argument). -/
def create_image (max_total_pixels : Int) (request : ImageGenerationRequest) :
    CreateImageOutcome :=
  let wh := parse_size request.size
  if wh.1 * wh.2 * (request.n : Int) ≥ max_total_pixels then
    .rejected400
  else
    let params : RequestParams :=
      { prompt := request.prompt
        negative_prompt := request.negative_prompt
        width := wh.1
        height := wh.2
        guidance_scale := request.guidance_scale
        num_inference_steps := request.num_inference_steps
        num_images := request.n
        seed := request.seed }
    if request.stream then .streamSSE params else .jsonResponse params

/-! ## Batch Manager (src/processing.py lines 27-109)

The two Python dicts `pending_requests` and `batch_timers` are keyed by the
batch-key tuple; they are embedded as association lists with unique keys.
`time.time()` is modelled by a `now : Nat` tick passed to each call (the
source reads the clock up to three times inside one locked `add_request`
call; the differences are sub-microsecond and the lock serialises the call,
so a single per-call timestamp is faithful). -/

/-- The batch-key tuple returned by `BatchManager.get_batch_key`. -/
abbrev BatchKey := Int × Int × Rat × Nat × Bool × Nat × Option Int

instance : DecidableEq (Rat × Nat × Bool × Nat × Option Int) := inferInstance

instance : DecidableEq (Int × Rat × Nat × Bool × Nat × Option Int) :=
  inferInstance

instance : DecidableEq BatchKey := inferInstance

/-- `get_batch_key`: `(width, height, guidance_scale, num_inference_steps,
stream, num_images, seed)`. -/
def get_batch_key (request : GenerationRequest) : BatchKey :=
  (request.width, request.height, request.guidance_scale,
   request.num_inference_steps, request.stream, request.num_images,
   request.seed)

/-- Dict lookup on an association list. -/
def alookup {α : Type} (k : BatchKey) : List (BatchKey × α) → Option α
  | [] => none
  | (k', v) :: rest => if k' = k then some v else alookup k rest

/-- Dict assignment: replace the binding of `k` or append a fresh one. -/
def ainsert {α : Type} (k : BatchKey) (v : α) :
    List (BatchKey × α) → List (BatchKey × α)
  | [] => [(k, v)]
  | (k', v') :: rest =>
      if k' = k then (k, v) :: rest else (k', v') :: ainsert k v rest

/-- Dict deletion of the binding of `k` (keys are unique). -/
def aerase {α : Type} (k : BatchKey) :
    List (BatchKey × α) → List (BatchKey × α)
  | [] => []
  | (k', v') :: rest => if k' = k then rest else (k', v') :: aerase k rest

/-- The Batch Manager's mutable state: pending buckets and their arrival
timers. -/
structure BMState where
  pending_requests : List (BatchKey × List GenerationRequest)
  batch_timers : List (BatchKey × Nat)
  deriving DecidableEq, Repr

/-- Configuration constants read from `config` (`MAX_TOTAL_PIXELS`,
`MAX_BATCH_SIZE`, `BATCH_TIMEOUT`). -/
structure BMConfig where
  max_total_pixels : Int
  max_batch_size : Nat
  batch_timeout : Nat
  deriving DecidableEq, Repr

/-- Defaults: 4 Mpx VRAM cap, batch size 8, timeout 500 ms (0.5 s). -/
def defaultBMConfig : BMConfig :=
  { max_total_pixels := 1024 * 1024 * 4, max_batch_size := 8,
    batch_timeout := 500 }

/-- `BatchManager._create_batch`: parallel arrays in bucket-insertion order,
scalar fields copied from `requests[0]`.  Python raises `IndexError` on an
empty list, hence the `Option`. -/
def _create_batch (batch_id : String) (requests : List GenerationRequest) :
    Option BatchedGenerationRequest :=
  match requests with
  | [] => none
  | first :: _ =>
      some
        { batch_id := batch_id
          prompts := requests.map (·.prompt)
          negative_prompts := requests.map (·.negative_prompt)
          request_ids := requests.map (·.request_id)
          num_images := first.num_images
          width := first.width
          height := first.height
          guidance_scale := first.guidance_scale
          num_inference_steps := first.num_inference_steps
          stream := first.stream
          seeds := some (requests.map (·.seed)) }

/-- `BatchManager.add_request`.  `batch_id` stands for the fresh
`uuid4()[:8]` that `_create_batch` would draw. -/
def add_request (cfg : BMConfig) (now : Nat) (batch_id : String)
    (request : GenerationRequest) (st : BMState) :
    Option BatchedGenerationRequest × BMState :=
  let batch_key := get_batch_key request
  let st1 :=
    if alookup batch_key st.pending_requests = none then
      { pending_requests := ainsert batch_key [] st.pending_requests,
        batch_timers := ainsert batch_key now st.batch_timers : BMState }
    else st
  let current_batch := (alookup batch_key st1.pending_requests).getD []
  let pixels_per_request :=
    request.width * request.height * (request.num_images : Int)
  let total_pixels := pixels_per_request * ((current_batch.length : Int) + 1)
  if total_pixels ≥ cfg.max_total_pixels ∧ current_batch ≠ [] then
    (_create_batch batch_id current_batch,
     { pending_requests := ainsert batch_key [request] st1.pending_requests,
       batch_timers := ainsert batch_key now st1.batch_timers })
  else
    let batch_requests := current_batch ++ [request]
    let time_elapsed := now - (alookup batch_key st1.batch_timers).getD 0
    if batch_requests.length ≥ cfg.max_batch_size ∨
        time_elapsed ≥ cfg.batch_timeout then
      (_create_batch batch_id batch_requests,
       { pending_requests := aerase batch_key st1.pending_requests,
         batch_timers := aerase batch_key st1.batch_timers })
    else
      (none,
       { pending_requests := ainsert batch_key batch_requests
           st1.pending_requests,
         batch_timers := st1.batch_timers })

/-- Modelled from the spec: the admission/flush rules of §4.3 exactly as
worded — rule 1 creates the missing bucket and records arrival; rule 2
computes `projected_pixels = width*height*n*(|bucket|+1)` and on meeting or
exceeding the VRAM cap flushes the existing bucket and starts a new bucket
with just the arriving request; rule 3 appends and flushes on size or age.
Unlike the source, rule 2 carries no "bucket is nonempty" guard. -/
def specAddRequest (cfg : BMConfig) (now : Nat) (batch_id : String)
    (request : GenerationRequest) (st : BMState) :
    Option BatchedGenerationRequest × BMState :=
  let batch_key := get_batch_key request
  let st1 :=
    if alookup batch_key st.pending_requests = none then
      { pending_requests := ainsert batch_key [] st.pending_requests,
        batch_timers := ainsert batch_key now st.batch_timers : BMState }
    else st
  let bucket := (alookup batch_key st1.pending_requests).getD []
  let projected_pixels :=
    request.width * request.height * (request.num_images : Int) *
      ((bucket.length : Int) + 1)
  if projected_pixels ≥ cfg.max_total_pixels then
    (_create_batch batch_id bucket,
     { pending_requests := ainsert batch_key [request] st1.pending_requests,
       batch_timers := ainsert batch_key now st1.batch_timers })
  else
    let bucket' := bucket ++ [request]
    let age := now - (alookup batch_key st1.batch_timers).getD 0
    if bucket'.length ≥ cfg.max_batch_size ∨ age ≥ cfg.batch_timeout then
      (_create_batch batch_id bucket',
       { pending_requests := aerase batch_key st1.pending_requests,
         batch_timers := aerase batch_key st1.batch_timers })
    else
      (none,
       { pending_requests := ainsert batch_key bucket' st1.pending_requests,
         batch_timers := st1.batch_timers })

/-- `BatchManager.check_timeouts`: flush every bucket whose age reached the
timeout.  `newId` supplies the fresh `uuid4()[:8]` per flushed key. -/
def check_timeouts (cfg : BMConfig) (now : Nat) (newId : BatchKey → String)
    (st : BMState) : List BatchedGenerationRequest × BMState :=
  let expired_keys :=
    (st.batch_timers.filter (fun kv => now - kv.2 ≥ cfg.batch_timeout)).map
      (·.1)
  let batches := expired_keys.filterMap (fun k =>
    _create_batch (newId k) ((alookup k st.pending_requests).getD []))
  (batches,
   { pending_requests :=
       expired_keys.foldl (fun m k => aerase k m) st.pending_requests,
     batch_timers :=
       expired_keys.foldl (fun m k => aerase k m) st.batch_timers })

/-- `BatchManager.flush_pending_batches`: flush every nonempty bucket and
clear the state. -/
def flush_pending_batches (newId : BatchKey → String) (st : BMState) :
    List BatchedGenerationRequest × BMState :=
  (st.pending_requests.filterMap (fun kv => _create_batch (newId kv.1) kv.2),
   { pending_requests := [], batch_timers := [] })

/-- The Batch Manager's key invariant: every request sits in the bucket of
its own batch key. -/
def BMInv (st : BMState) : Prop :=
  ∀ kv ∈ st.pending_requests, ∀ r ∈ kv.2, get_batch_key r = kv.1

/-- A well-formed constructed batch: it is the image of a nonempty,
key-homogeneous request list, with the parallel arrays in insertion order
and the scalar fields equal to every member's. -/
def BatchWF (b : BatchedGenerationRequest) : Prop :=
  ∃ reqs : List GenerationRequest,
    reqs ≠ [] ∧
    b.prompts = reqs.map (·.prompt) ∧
    b.negative_prompts = reqs.map (·.negative_prompt) ∧
    b.request_ids = reqs.map (·.request_id) ∧
    b.seeds = some (reqs.map (·.seed)) ∧
    (∀ r ∈ reqs, ∀ r' ∈ reqs, get_batch_key r = get_batch_key r') ∧
    (∀ r ∈ reqs,
      r.width = b.width ∧ r.height = b.height ∧
      r.guidance_scale = b.guidance_scale ∧
      r.num_inference_steps = b.num_inference_steps ∧
      r.stream = b.stream ∧ r.num_images = b.num_images)

/-! ## Worker event emission (src/worker.py lines 133-312)

The pipeline, the VAE and the PNG/JPEG encoders are opaque externals; they
enter the model as parameters (an abstract image type `Img`, an encoder
`enc : Img → String`, and explicit success/failure outcomes).  The worker's
queue `put` calls become elements of the returned event list, in emission
order. -/

/-- Decimal rendering of a natural number, as Python's `str`/f-string does
(`natChars 0 = ['0']`, otherwise most significant digit first). -/
def natChars (n : Nat) : List Char :=
  if n = 0 then ['0'] else ((Nat.digits 10 n).map Nat.digitChar).reverse

/-- The chunk id
`f"{request_id}_step_{step_index}_img_{image_idx}_{int(time.time()*1000)}"`
(`ts` models the millisecond wall clock, read once per recipient within one
`send_chunked_image` call). -/
def chunkId (request_id : String) (step_index : Nat) (image_idx : Nat)
    (ts : Nat) : PyStr :=
  request_id.toList ++ "_step_".toList ++ natChars step_index ++
    "_img_".toList ++ natChars image_idx ++ "_".toList ++ natChars ts

/-- The `max_chunk_size` default of `send_chunked_image`: 400 KiB. -/
def MAX_CHUNK_SIZE : Nat := 400 * 1024

/-- Body of the per-recipient loop of `send_chunked_image` for one
`request_id` (the `if not request_id: continue` guard stays in the outer
wrapper).  `num_inference_steps` only feeds the float `progress` field. -/
def send_chunked_image_to (request_id : String) (seed : Option Int)
    (num_inference_steps num_images : Nat) (ts : Nat) (image_b64 : PyStr)
    (step_index : Nat) (is_final_step : Bool) (image_idx : Nat)
    (max_chunk_size : Nat) : List GenerationResult :=
  if image_b64.length ≤ max_chunk_size then
    [{ request_id := request_id
       payload := .streamingStep
         { step := step_index
           progress := ((step_index : Rat) + 1) / (num_inference_steps : Rat)
           image := image_b64
           is_final := is_final_step
           is_chunked := false
           chunk_id := none
           chunk_index := none
           total_chunks := none
           image_index := image_idx
           total_images := num_images
           seed := seed } }]
  else
    let cid := chunkId request_id step_index image_idx ts
    let total_chunks :=
      (image_b64.length + max_chunk_size - 1) / max_chunk_size
    (List.range total_chunks).map (fun chunk_index =>
      let start_pos := chunk_index * max_chunk_size
      let end_pos := min ((chunk_index + 1) * max_chunk_size) image_b64.length
      { request_id := request_id
        payload := .streamingStep
          { step := step_index
            progress := ((step_index : Rat) + 1) / (num_inference_steps : Rat)
            image := (image_b64.drop start_pos).take (end_pos - start_pos)
            is_final := is_final_step
            is_chunked := true
            chunk_id := some cid
            chunk_index := some chunk_index
            total_chunks := some total_chunks
            image_index := image_idx
            total_images := num_images
            seed := seed } })

/-- `send_chunked_image` (src/worker.py lines 174-196): one emission per
non-empty target request id, chunked past `MAX_CHUNK_SIZE`. -/
def send_chunked_image (target_request_ids : List String) (seed : Option Int)
    (num_inference_steps num_images : Nat) (ts : Nat) (image_b64 : PyStr)
    (step_index : Nat) (is_final_step : Bool) (image_idx : Nat) :
    List GenerationResult :=
  target_request_ids.flatMap (fun request_id =>
    if request_id = "" then []
    else
      send_chunked_image_to request_id seed num_inference_steps num_images ts
        image_b64 step_index is_final_step image_idx MAX_CHUNK_SIZE)

/-- Observable behaviour of one executed step callback
(src/worker.py `create_step_callback`):
* `emits` — the decode/encode path succeeded and queued these
  `streaming_step` events;
* `decodeError` — the inner `except` fired: the failure is logged and the
  frame is omitted, nothing is queued;
* `callbackError` — the outer `except` fired: one `error` event is queued
  per target request id, and the callback still returns normally, so the
  pipeline run continues. -/
inductive StepBehavior where
  | emits (events : List StreamStepData)
  | decodeError
  | callbackError (msg : String)
  deriving DecidableEq, Repr

/-- Events queued by one step-callback execution for a single-request
streaming job. -/
def step_callback_events (request_id : String) :
    StepBehavior → List GenerationResult
  | .emits ds => ds.map (fun d =>
      { request_id := request_id, payload := .streamingStep d })
  | .decodeError => []
  | .callbackError msg =>
      [{ request_id := request_id, payload := .error msg }]

/-- `process_streaming_request` (src/worker.py lines 198-217), as the event
trace of one execution: the steps that actually executed their callback, in
order, then the terminal event — `completed` with `data=None` when the
pipeline invocation returns, or `error` when it raises
(`pipelineError = some msg`). -/
def process_streaming_request (request_id : String)
    (executedSteps : List StepBehavior) (pipelineError : Option String) :
    List GenerationResult :=
  executedSteps.flatMap (step_callback_events request_id) ++
    [match pipelineError with
     | none => { request_id := request_id, payload := .completedNone }
     | some msg => { request_id := request_id, payload := .error msg }]

/-- Per-member seed resolution of the batched worker paths: a supplied seed
is kept, a missing one falls back to `int(time.time()*1000 + i) % 2**32`
(`t` models `int(time.time()*1000)`). -/
def resolveSeeds (t : Nat) (batch : BatchedGenerationRequest) : List Int :=
  match batch.seeds with
  | none =>
      (List.range batch.prompts.length).map (fun i => ((t + i) % 2 ^ 32 : Nat))
  | some seeds =>
      seeds.enum.map (fun p => p.2.getD (((t + p.1) % 2 ^ 32 : Nat) : Int))

/-- `process_non_streaming_request` (src/worker.py lines 250-274): one
pipeline invocation; on success one `completed` event with all encoded
images and the resolved seed, on failure one `error` event. -/
def process_non_streaming_request {Img : Type} (enc : Img → String) (t : Nat)
    (gen_request : GenerationRequest) (pipelineResult : Except String (List Img)) :
    List GenerationResult :=
  let seed : Int := gen_request.seed.getD ((t % 2 ^ 32 : Nat) : Int)
  match pipelineResult with
  | .error msg =>
      [{ request_id := gen_request.request_id, payload := .error msg }]
  | .ok images =>
      [{ request_id := gen_request.request_id
         payload := .completed (images.map enc) seed }]

/-- `process_batched_non_streaming_request` (src/worker.py lines 276-312):
resolve seeds, seed the single RNG from `seeds[0]` (an empty batch raises
`IndexError` before the pipeline runs), invoke the pipeline once, then emit
one `completed` event per originating request id whose data is that
request's contiguous `num_images`-slice of the image list plus `seeds[0]`;
any exception instead emits one `error` event per request id. -/
def process_batched_non_streaming_request {Img : Type} (enc : Img → String)
    (t : Nat) (batch : BatchedGenerationRequest)
    (pipelineResult : Except String (List Img)) : List GenerationResult :=
  let seeds := resolveSeeds t batch
  match seeds.head? with
  | none =>
      batch.request_ids.map (fun rid =>
        { request_id := rid, payload := .error "list index out of range" })
  | some s0 =>
      match pipelineResult with
      | .error msg =>
          batch.request_ids.map (fun rid =>
            { request_id := rid, payload := .error msg })
      | .ok images =>
          batch.request_ids.enum.map (fun p =>
            { request_id := p.2
              payload := .completed
                (((images.drop (p.1 * batch.num_images)).take
                    batch.num_images).map enc) s0 })

/-! ## Prompt optimisation (src/utils.py lines 56-127, src/main.py 242-280)

The external LLM is opaque: each loop iteration of `convert_prompt` either
raises inside the `try` (`LLMAttempt.raised`, swallowed by `except: pass`)
or yields `response.choices[0].message.content`
(`LLMAttempt.returned content`, where the content may be Python `None`). -/

/-- `re.sub(r"\s{2,}", " ", s)`: replace every maximal run of two or more
whitespace characters by one space, keeping a lone whitespace character as
it is.  Processed right to left: a whitespace character followed by a
whitespace head of the processed suffix merges into a single `' '`. -/
def collapseWs (s : PyStr) : PyStr :=
  s.foldr (fun c acc =>
    if isPySpace c then
      match acc with
      | a :: acctl => if isPySpace a then ' ' :: acctl else c :: acc
      | [] => [c]
    else c :: acc) []

/-- `clean_string(s)` of src/utils.py. -/
def clean_string (s : PyStr) : PyStr :=
  collapseWs (stripWs (s.map (fun c => if c = '\n' then ' ' else c)))

/-- One retry-loop iteration's view of the external LLM call. -/
inductive LLMAttempt where
  | raised
  | returned (content : Option PyStr)
  deriving DecidableEq, Repr

/-- The retry loop of `convert_prompt`: on an exception the current value
is kept; otherwise `prompt` is reassigned to the returned content, and only
a truthy (nonempty) content is cleaned and breaks the loop.  The loop can
therefore end with `None` or an empty string. -/
def convert_prompt_loop : List LLMAttempt → Option PyStr → Option PyStr
  | [], p => p
  | a :: rest, p =>
      match a with
      | .raised => convert_prompt_loop rest p
      | .returned c =>
          match c with
          | some s =>
              if s ≠ [] then some (clean_string s)
              else convert_prompt_loop rest (some s)
          | none => convert_prompt_loop rest none

/-- `convert_prompt`: clean the input, then run the retry loop
(`attempts` has one entry per executed iteration, at most `retry_times`).
When every attempt raises, the cleaned original is returned. -/
def convert_prompt (prompt : PyStr) (attempts : List LLMAttempt) :
    Option PyStr :=
  convert_prompt_loop attempts (some (clean_string prompt))

/-- Response body of `POST /v1/prompt/optimize`. -/
structure PromptOptimizationResponse where
  original_prompt : PyStr
  optimized_prompt : PyStr
  success : Bool
  message : String
  deriving DecidableEq, Repr

/-- The `optimize_prompt` endpoint (src/main.py lines 242-280).
`clientInitRaises` models the only statement of `convert_prompt` outside
its swallowing retry loop — the `OpenAI(...)` construction — raising, which
the endpoint's `except` turns into an original-prompt response with
`success=False`.  Otherwise the endpoint reports success iff the returned
prompt is truthy and not pure whitespace, falling back to the original
prompt on an empty result. -/
def optimize_prompt (req_prompt : PyStr) (clientInitRaises : Bool)
    (attempts : List LLMAttempt) : PromptOptimizationResponse :=
  if clientInitRaises then
    { original_prompt := req_prompt
      optimized_prompt := req_prompt
      success := false
      message := "Optimization failed" }
  else
    match convert_prompt req_prompt attempts with
    | some s =>
        if s ≠ [] ∧ stripWs s ≠ [] then
          { original_prompt := req_prompt
            optimized_prompt := s
            success := true
            message := "Prompt optimized successfully" }
        else
          { original_prompt := req_prompt
            optimized_prompt := req_prompt
            success := false
            message := "Failed to optimize prompt - empty result" }
    | none =>
        { original_prompt := req_prompt
          optimized_prompt := req_prompt
          success := false
          message := "Failed to optimize prompt - empty result" }

/-! ## Gallery save (src/main.py lines 394-521, `save_to_gallery`)

The filesystem is abstracted to the set of image files plus the state of
`static/images/gallery.json`.  A failing `json.dump` into the truncated
index file leaves it unreadable (`corrupt`); the compensating
`os.remove(file_path)` of the source is modelled as succeeding. -/

/-- One entry of the gallery index. -/
structure GalleryEntry where
  id : Int
  url : String
  prompt : String
  negative_prompt : String
  size : String
  seed : Int
  timestamp : Nat
  guidance_scale : Rat
  num_inference_steps : Nat
  deriving DecidableEq, Repr

/-- On-disk state of `static/images/gallery.json`. -/
inductive IndexFile where
  | missing
  | present (entries : List GalleryEntry)
  | corrupt
  deriving DecidableEq, Repr

/-- Abstract gallery filesystem: image file names and the index. -/
structure GalleryFS where
  imageFiles : List String
  index : IndexFile
  deriving DecidableEq, Repr

/-- Body of `POST /v1/gallery/save` after field validation. -/
structure SaveGalleryRequest where
  image_data : String
  prompt : String
  size : String
  negative_prompt : String
  seed : Option Int
  guidance_scale : Rat
  num_inference_steps : Nat
  deriving DecidableEq, Repr

/-- Outcome of the save endpoint. -/
inductive SaveOutcome where
  | saved (image_id : Int) (filename : String)
  | httpError (code : Nat)
  deriving DecidableEq, Repr

/-- `next_id = max(img['id'] for img in images) + 1`, or `1` when empty. -/
def nextGalleryId : List GalleryEntry → Int
  | [] => 1
  | e :: es => (es.map (·.id)).foldl max e.id + 1

/-- Does the index hold an entry with this url? -/
def indexHasUrl (u : String) : IndexFile → Bool
  | .present es => es.any (fun e => e.url = u)
  | _ => false

/-- Add a file name to the abstract filesystem (idempotent, like a write). -/
def addFile (f : String) (files : List String) : List String :=
  if f ∈ files then files else f :: files

/-- `save_to_gallery` (src/main.py lines 394-521).  `now` is the unix
second used for the filename and timestamp; `randomSeed` the
`random.randint(0, 2147483647)` fallback; `decodeOk`/`isJpeg` the result of
base64 decoding and PIL format sniffing; `imageWriteOk` and `jsonWriteOk`
whether the two disk writes succeed. -/
def save_to_gallery (request : SaveGalleryRequest) (now : Nat)
    (randomSeed : Int) (decodeOk isJpeg imageWriteOk jsonWriteOk : Bool)
    (st : GalleryFS) : SaveOutcome × GalleryFS :=
  if ¬ decodeOk then (.httpError 500, st)
  else
    let seed := request.seed.getD randomSeed
    let filename :=
      if isJpeg then "image-" ++ toString now ++ ".jpg"
      else "image-" ++ toString now ++ ".png"
    if ¬ imageWriteOk then (.httpError 500, st)
    else
      let st1 : GalleryFS :=
        { imageFiles := addFile filename st.imageFiles, index := st.index }
      match st1.index with
      | .corrupt =>
          -- json.load raises on the unreadable index; the outer except
          -- returns 500 with the image file left behind.
          (.httpError 500, st1)
      | idx =>
          let entries := match idx with | .present es => es | _ => []
          let next_id := nextGalleryId entries
          let newEntry : GalleryEntry :=
            { id := next_id
              url := "/static/images/" ++ filename
              prompt := request.prompt
              negative_prompt := request.negative_prompt
              size := request.size
              seed := seed
              timestamp := now
              guidance_scale := request.guidance_scale
              num_inference_steps := request.num_inference_steps }
          if jsonWriteOk then
            (.saved next_id filename,
             { imageFiles := st1.imageFiles,
               index := .present (entries ++ [newEntry]) })
          else
            (.httpError 500,
             { imageFiles := st1.imageFiles.filter (fun f => f ≠ filename),
               index := .corrupt })

/-! # Theorems

Helper lemmas first, then the per-claim theorems with their witnesses and
counterexamples. -/

theorem dropWhile_eq_self_of_all {p : Char → Bool} {l : PyStr}
    (h : ∀ c ∈ l, p c = false) : l.dropWhile p = l := by
  cases l with
  | nil => rfl
  | cons c rest => simp [List.dropWhile_cons, h c (by simp)]

theorem stripWs_eq_self_of_all {l : PyStr}
    (h : ∀ c ∈ l, isPySpace c = false) : stripWs l = l := by
  unfold stripWs
  rw [dropWhile_eq_self_of_all h,
      dropWhile_eq_self_of_all (fun c hc => h c (List.mem_reverse.mp hc)),
      List.reverse_reverse]

theorem isPySpace_eq_false_of_isDigit {c : Char} (h : c.isDigit = true) :
    isPySpace c = false := by
  simp only [isPySpace, Bool.or_eq_false_iff, decide_eq_false_iff_not]
  refine ⟨⟨⟨⟨⟨?_, ?_⟩, ?_⟩, ?_⟩, ?_⟩, ?_⟩ <;>
    (intro hc; subst hc; exact absurd h (by decide))

theorem ne_of_isDigit {c d : Char} (h : c.isDigit = true)
    (hd : d.isDigit = false) : c ≠ d := by
  intro hc; subst hc; rw [h] at hd; exact Bool.noConfusion hd

theorem digitsRun_all_digits : ∀ (l : PyStr) (acc : Nat),
    (∀ c ∈ l, c.isDigit = true) →
    digitsRun acc l = some (l.foldl (fun a c => 10 * a + digitVal c) acc) := by
  intro l
  induction l with
  | nil => intro acc _; rfl
  | cons c rest ih =>
      intro acc h
      have hc := h c (by simp)
      rw [digitsRun.eq_def]
      simp only [hc, if_true, List.foldl_cons]
      exact ih (10 * acc + digitVal c) (fun d hd => h d (by simp [hd]))

theorem digitsUnd_all_digits {l : PyStr} (hne : l ≠ [])
    (h : ∀ c ∈ l, c.isDigit = true) : digitsUnd l = some (digitsNum l) := by
  cases l with
  | nil => exact absurd rfl hne
  | cons c rest =>
      rw [digitsUnd, if_pos (h c (by simp)),
          digitsRun_all_digits rest (digitVal c)
            (fun d hd => h d (by simp [hd]))]
      simp [digitsNum]

theorem pyInt_all_digits {l : PyStr} (hne : l ≠ [])
    (h : ∀ c ∈ l, c.isDigit = true) :
    pyInt l = some (digitsNum l : Int) := by
  have hs : stripWs l = l :=
    stripWs_eq_self_of_all (fun c hc => isPySpace_eq_false_of_isDigit (h c hc))
  cases l with
  | nil => exact absurd rfl hne
  | cons c rest =>
      have hc := h c (by simp)
      simp only [pyInt, hs]
      rw [if_neg (ne_of_isDigit hc (by decide)),
          if_neg (ne_of_isDigit hc (by decide)),
          digitsUnd_all_digits (by simp) h]
      rfl

theorem pySplit_no_sep {sep : Char} : ∀ {l : PyStr}, sep ∉ l →
    pySplit sep l = [l] := by
  intro l
  induction l with
  | nil => intro _; rfl
  | cons c rest ih =>
      intro h
      have hcs : ¬ c = sep := fun hc => h (by simp [hc])
      rw [pySplit]
      simp only [if_neg hcs, ih (fun hm => h (by simp [hm]))]

theorem pySplit_sep_append {sep : Char} : ∀ {a b : PyStr}, sep ∉ a →
    sep ∉ b → pySplit sep (a ++ sep :: b) = [a, b] := by
  intro a
  induction a with
  | nil =>
      intro b _ hb
      rw [List.nil_append]
      simp only [pySplit, if_pos, pySplit_no_sep hb]
  | cons c a' ih =>
      intro b ha hb
      have hcs : ¬ c = sep := fun hc => ha (by simp [hc])
      rw [List.cons_append]
      simp only [pySplit, if_neg hcs, ih (fun hm => ha (by simp [hm])) hb]

theorem matchesSizeRe_decomp {s : PyStr} (h : matchesSizeRe s = true) :
    s.takeWhile Char.isDigit ≠ [] ∧
    (s.dropWhile Char.isDigit).tail ≠ [] ∧
    (∀ c ∈ s.takeWhile Char.isDigit, c.isDigit = true) ∧
    (∀ c ∈ (s.dropWhile Char.isDigit).tail, c.isDigit = true) ∧
    s = s.takeWhile Char.isDigit ++ 'x' :: (s.dropWhile Char.isDigit).tail := by
  unfold matchesSizeRe at h
  simp only [Bool.and_eq_true, decide_eq_true_eq] at h
  obtain ⟨⟨⟨hane, hhead⟩, htne⟩, hall⟩ := h
  have htake : ∀ c ∈ s.takeWhile Char.isDigit, c.isDigit = true :=
    fun c hc => List.mem_takeWhile_imp hc
  refine ⟨hane, htne, htake, fun c hc => List.all_eq_true.mp hall c hc, ?_⟩
  rcases hd : s.dropWhile Char.isDigit with _ | ⟨c0, b⟩
  · rw [hd] at hhead; exact absurd hhead (by simp)
  · have hc0 : c0 = 'x' := by
      rw [hd] at hhead
      simpa using hhead
    subst hc0
    conv_lhs => rw [← List.takeWhile_append_dropWhile Char.isDigit s]
    rw [hd]
    simp

/-- C7, counterexample: the string `" 12x34"` does not match `^\d+x\d+$`,
yet `parse_size` returns `(12, 34)` rather than the claimed `(1024, 1024)`
default, because Python's `int` strips whitespace. -/
theorem parse_size_whitespace_counterexample :
    matchesSizeRe " 12x34".toList = false ∧
    parse_size " 12x34".toList = (12, 34) ∧
    parse_size " 12x34".toList ≠ (1024, 1024) := by
  refine ⟨rfl, rfl, by decide⟩

theorem parse_size_pair {s a b : PyStr} (hsp : pySplit 'x' s = [a, b]) :
    parse_size s =
      (match pyInt a, pyInt b with
       | some w, some h => (w, h)
       | _, _ => ((1024 : Int), (1024 : Int))) := by
  unfold parse_size
  rw [hsp]

/-- C7, amended: if `s` matches `^\d+x\d+$` then `parse_size` returns the
pair of integers written in `s`; a non-matching `s` yields the `(1024,1024)`
default unless its two `x`-separated parts are both still accepted by
Python's `int` (which tolerates surrounding whitespace, a sign, and
underscore digit separators), in which case those two integers are
returned. -/
theorem parse_size_amended (s : PyStr) :
    (matchesSizeRe s = true →
      parse_size s = ((digitsNum (s.takeWhile Char.isDigit) : Int),
        (digitsNum ((s.dropWhile Char.isDigit).tail) : Int))) ∧
    (matchesSizeRe s = false →
      parse_size s = (1024, 1024) ∨
        ∃ a b w h, pySplit 'x' s = [a, b] ∧ pyInt a = some w ∧
          pyInt b = some h ∧ parse_size s = (w, h)) := by
  constructor
  · intro h
    obtain ⟨hane, hbne, hadig, hbdig, hs⟩ := matchesSizeRe_decomp h
    have hxa : 'x' ∉ s.takeWhile Char.isDigit := fun hm =>
      absurd (hadig _ hm) (by decide)
    have hxb : 'x' ∉ (s.dropWhile Char.isDigit).tail := fun hm =>
      absurd (hbdig _ hm) (by decide)
    have hsp : pySplit 'x' s = [s.takeWhile Char.isDigit,
        (s.dropWhile Char.isDigit).tail] := by
      conv_lhs => rw [hs]
      exact pySplit_sep_append hxa hxb
    rw [parse_size_pair hsp, pyInt_all_digits hane hadig,
      pyInt_all_digits hbne hbdig]
  · intro _
    rcases hsp : pySplit 'x' s with _ | ⟨a, _ | ⟨b, _ | _⟩⟩
    · left; unfold parse_size; rw [hsp]
    · left; unfold parse_size; rw [hsp]
    · rcases hpa : pyInt a with _ | w
      · left; rw [parse_size_pair hsp, hpa]
      · rcases hpb : pyInt b with _ | h
        · left; rw [parse_size_pair hsp, hpa, hpb]
        · right
          exact ⟨a, b, w, h, rfl, hpa, hpb, by
            rw [parse_size_pair hsp, hpa, hpb]⟩

    · left; unfold parse_size; rw [hsp]

/-- C7, witness: `"12x34"` matches the regex and parses to `(12, 34)`. -/
theorem parse_size_amended_witness :
    matchesSizeRe "12x34".toList = true ∧
    parse_size "12x34".toList = (12, 34) :=
  ⟨rfl, ((parse_size_amended "12x34".toList).1 rfl).trans (by decide)⟩

/-- C3: `POST /v1/images/generations` responds HTTP 400 before any worker
involvement if and only if `parsed_width * parsed_height * n` meets or
exceeds `MAX_TOTAL_PIXELS`; every request strictly below the cap proceeds
to the streaming (SSE) or non-streaming (JSON) generation path with the
forwarded parameter tuple. -/
theorem create_image_admission (cap : Int)
    (request : ImageGenerationRequest) :
    (create_image cap request = .rejected400 ↔
      (parse_size request.size).1 * (parse_size request.size).2 *
        (request.n : Int) ≥ cap) ∧
    ((parse_size request.size).1 * (parse_size request.size).2 *
        (request.n : Int) < cap →
      create_image cap request =
        (if request.stream then
          CreateImageOutcome.streamSSE
            { prompt := request.prompt
              negative_prompt := request.negative_prompt
              width := (parse_size request.size).1
              height := (parse_size request.size).2
              guidance_scale := request.guidance_scale
              num_inference_steps := request.num_inference_steps
              num_images := request.n
              seed := request.seed }
        else
          CreateImageOutcome.jsonResponse
            { prompt := request.prompt
              negative_prompt := request.negative_prompt
              width := (parse_size request.size).1
              height := (parse_size request.size).2
              guidance_scale := request.guidance_scale
              num_inference_steps := request.num_inference_steps
              num_images := request.n
              seed := request.seed })) := by
  unfold create_image
  constructor
  · by_cases hc : (parse_size request.size).1 * (parse_size request.size).2 *
        (request.n : Int) ≥ cap
    · simp [hc]
    · simp only [if_neg hc]
      constructor
      · intro h
        split at h <;> exact absurd h (by simp)
      · intro h; exact absurd h hc
  · intro h
    rw [if_neg (not_le.mpr h)]

/-- C3, witness: with `MAX_TOTAL_PIXELS = 1048576`, a `1024x1024, n=2`
request is rejected with 400; with the default 4 Mpx cap the same
non-streaming request proceeds to the JSON generation path. -/
theorem create_image_admission_witness :
    create_image 1048576
      { prompt := "a cat", negative_prompt := none, n := 2,
        size := "1024x1024".toList, quality := "standard",
        style := "natural", response_format := "b64_json", user := none,
        stream := false, guidance_scale := 5, num_inference_steps := 50,
        seed := none } = .rejected400 ∧
    create_image 4194304
      { prompt := "a cat", negative_prompt := none, n := 2,
        size := "1024x1024".toList, quality := "standard",
        style := "natural", response_format := "b64_json", user := none,
        stream := false, guidance_scale := 5, num_inference_steps := 50,
        seed := none } =
      .jsonResponse
        { prompt := "a cat", negative_prompt := none, width := 1024,
          height := 1024, guidance_scale := 5, num_inference_steps := 50,
          num_images := 2, seed := none } :=
  ⟨((create_image_admission 1048576 _).1).mpr (by decide),
   ((create_image_admission 4194304 _).2 (by decide)).trans (by decide)⟩

/-- C10: the outcome of `POST /v1/images/generations` — the admission
decision and the parameter tuple forwarded to the worker pool — is
independent of the `quality`, `style`, `user` and `response_format`
request fields. -/
theorem create_image_ignores_cosmetic_fields (cap : Int)
    (r1 r2 : ImageGenerationRequest)
    (hprompt : r1.prompt = r2.prompt)
    (hneg : r1.negative_prompt = r2.negative_prompt)
    (hn : r1.n = r2.n) (hsize : r1.size = r2.size)
    (hg : r1.guidance_scale = r2.guidance_scale)
    (hsteps : r1.num_inference_steps = r2.num_inference_steps)
    (hstream : r1.stream = r2.stream) (hseed : r1.seed = r2.seed) :
    create_image cap r1 = create_image cap r2 := by
  cases r1
  cases r2
  dsimp only at hprompt hneg hn hsize hg hsteps hstream hseed
  subst hprompt hneg hn hsize hg hsteps hstream hseed
  rfl

/-- C10, witness: two concrete requests differing only in `quality`,
`style`, `user` and `response_format` produce identical outcomes. -/
theorem create_image_ignores_cosmetic_fields_witness :
    create_image 4194304
      { prompt := "p", negative_prompt := none, n := 1,
        size := "512x512".toList, quality := "standard",
        style := "natural", response_format := "b64_json", user := none,
        stream := true, guidance_scale := 5, num_inference_steps := 50,
        seed := some 7 } =
    create_image 4194304
      { prompt := "p", negative_prompt := none, n := 1,
        size := "512x512".toList, quality := "hd",
        style := "vivid", response_format := "url",
        user := some "alice", stream := true, guidance_scale := 5,
        num_inference_steps := 50, seed := some 7 } :=
  create_image_ignores_cosmetic_fields 4194304 _ _ rfl rfl rfl rfl rfl rfl
    rfl rfl

/-- C1: for every internal request reaching `BatchManager.add_request` —
internal requests are admitted by the HTTP gate, so
`width*height*n < MAX_TOTAL_PIXELS` — the method behaves exactly as the
spec's ordered rules: create the missing bucket and record arrival; flush
the bucket on `projected_pixels ≥ MAX_TOTAL_PIXELS`, restarting it with
just the arriving request; otherwise append and flush exactly when the
bucket size reached `MAX_BATCH_SIZE` or its age reached `BATCH_TIMEOUT`,
else return nil.  (The source's extra "bucket nonempty" guard on the VRAM
flush is redundant below the cap: an empty bucket's projected pixel count
is `width*height*n` itself.) -/
theorem add_request_meets_spec_rules (cfg : BMConfig) (now : Nat)
    (batch_id : String) (request : GenerationRequest) (st : BMState)
    (hadm : request.width * request.height * (request.num_images : Int) <
      cfg.max_total_pixels) :
    add_request cfg now batch_id request st =
      specAddRequest cfg now batch_id request st := by
  have hcond : ∀ bucket : List GenerationRequest,
      (request.width * request.height * (request.num_images : Int) *
          ((bucket.length : Int) + 1) ≥ cfg.max_total_pixels ∧
        bucket ≠ []) ↔
      request.width * request.height * (request.num_images : Int) *
          ((bucket.length : Int) + 1) ≥ cfg.max_total_pixels := by
    intro bucket
    constructor
    · exact fun h => h.1
    · intro h
      refine ⟨h, ?_⟩
      rintro rfl
      simp only [List.length_nil, Int.ofNat_zero, Nat.cast_zero, zero_add,
        mul_one, ge_iff_le] at h
      exact absurd h (not_le.mpr hadm)
  unfold add_request specAddRequest
  simp only [hcond]

/-- C1, witness: an admitted 512x512 single-image request on the empty
state follows the spec rules. -/
theorem add_request_meets_spec_rules_witness :
    add_request defaultBMConfig 0 "b0"
      { request_id := "r1", prompt := "p", negative_prompt := none,
        width := 512, height := 512, guidance_scale := 5,
        num_inference_steps := 50, num_images := 1, stream := false,
        seed := none }
      { pending_requests := [], batch_timers := [] } =
    specAddRequest defaultBMConfig 0 "b0"
      { request_id := "r1", prompt := "p", negative_prompt := none,
        width := 512, height := 512, guidance_scale := 5,
        num_inference_steps := 50, num_images := 1, stream := false,
        seed := none }
      { pending_requests := [], batch_timers := [] } :=
  add_request_meets_spec_rules defaultBMConfig 0 "b0" _ _ (by decide)

theorem mem_ainsert {α : Type} {k : BatchKey} {v : α} {kv : BatchKey × α} :
    ∀ {m : List (BatchKey × α)}, kv ∈ ainsert k v m → kv = (k, v) ∨ kv ∈ m := by
  intro m
  induction m with
  | nil => intro h; simpa [ainsert] using h
  | cons hd tl ih =>
      intro h
      rw [ainsert] at h
      by_cases hk : hd.1 = k
      · rw [if_pos (by cases hd; exact hk)] at h
        rcases List.mem_cons.mp h with h' | h'
        · exact Or.inl h'
        · exact Or.inr (List.mem_cons_of_mem _ h')
      · rw [if_neg (by cases hd; exact hk)] at h
        rcases List.mem_cons.mp h with h' | h'
        · exact Or.inr (h' ▸ List.mem_cons_self _ _)
        · rcases ih h' with h'' | h''
          · exact Or.inl h''
          · exact Or.inr (List.mem_cons_of_mem _ h'')

theorem mem_aerase {α : Type} {k : BatchKey} {kv : BatchKey × α} :
    ∀ {m : List (BatchKey × α)}, kv ∈ aerase k m → kv ∈ m := by
  intro m
  induction m with
  | nil => intro h; simp [aerase] at h
  | cons hd tl ih =>
      intro h
      rw [aerase] at h
      by_cases hk : hd.1 = k
      · rw [if_pos (by cases hd; exact hk)] at h
        exact List.mem_cons_of_mem _ h
      · rw [if_neg (by cases hd; exact hk)] at h
        rcases List.mem_cons.mp h with h' | h'
        · exact h' ▸ List.mem_cons_self _ _
        · exact List.mem_cons_of_mem _ (ih h')

theorem alookup_mem {α : Type} {k : BatchKey} {v : α} :
    ∀ {m : List (BatchKey × α)}, alookup k m = some v → (k, v) ∈ m := by
  intro m
  induction m with
  | nil => intro h; simp [alookup] at h
  | cons hd tl ih =>
      intro h
      rw [alookup] at h
      by_cases hk : hd.1 = k
      · rw [if_pos (by cases hd; exact hk)] at h
        injection h with h'
        subst h'
        cases hd
        subst hk
        exact List.mem_cons_self _ _
      · rw [if_neg (by cases hd; exact hk)] at h
        exact List.mem_cons_of_mem _ (ih h)

theorem bucket_keys {st : BMState} (hI : BMInv st) (k : BatchKey) :
    ∀ r ∈ (alookup k st.pending_requests).getD [], get_batch_key r = k := by
  cases hlk : alookup k st.pending_requests with
  | none => simp
  | some bucket =>
      intro r hr
      exact hI (k, bucket) (alookup_mem hlk) r (by simpa using hr)

theorem inv_ainsert {st : BMState} {tm : List (BatchKey × Nat)}
    {k : BatchKey} {v : List GenerationRequest} (hI : BMInv st)
    (hv : ∀ r ∈ v, get_batch_key r = k) :
    BMInv { pending_requests := ainsert k v st.pending_requests,
            batch_timers := tm } := by
  intro kv hkv r hr
  rcases mem_ainsert hkv with h | h
  · subst h; exact hv r hr
  · exact hI kv h r hr

theorem inv_aerase {st : BMState} {tm : List (BatchKey × Nat)}
    {k : BatchKey} (hI : BMInv st) :
    BMInv { pending_requests := aerase k st.pending_requests,
            batch_timers := tm } :=
  fun kv hkv r hr => hI kv (mem_aerase hkv) r hr

theorem batch_key_fields {r r' : GenerationRequest}
    (h : get_batch_key r = get_batch_key r') :
    r.width = r'.width ∧ r.height = r'.height ∧
    r.guidance_scale = r'.guidance_scale ∧
    r.num_inference_steps = r'.num_inference_steps ∧
    r.stream = r'.stream ∧ r.num_images = r'.num_images ∧
    r.seed = r'.seed := by
  simpa [get_batch_key, Prod.ext_iff] using h

theorem _create_batch_WF {batch_id : String}
    {reqs : List GenerationRequest} {b : BatchedGenerationRequest}
    (hhom : ∀ r ∈ reqs, ∀ r' ∈ reqs, get_batch_key r = get_batch_key r')
    (h : _create_batch batch_id reqs = some b) : BatchWF b := by
  cases reqs with
  | nil => simp [_create_batch] at h
  | cons first rest =>
      rw [_create_batch] at h
      injection h with h
      subst h
      refine ⟨first :: rest, by simp, rfl, rfl, rfl, rfl, hhom, ?_⟩
      intro r hr
      have hk := batch_key_fields (hhom r hr first (by simp))
      exact ⟨hk.1, hk.2.1, hk.2.2.1, hk.2.2.2.1, hk.2.2.2.2.1,
        hk.2.2.2.2.2.1⟩

theorem alookup_ainsert_self {α : Type} (k : BatchKey) (v : α) :
    ∀ m : List (BatchKey × α), alookup k (ainsert k v m) = some v := by
  intro m
  induction m with
  | nil => simp [ainsert, alookup]
  | cons hd tl ih =>
      obtain ⟨k', v'⟩ := hd
      rw [ainsert]
      by_cases hk : k' = k
      · rw [if_pos hk, alookup, if_pos rfl]
      · rw [if_neg hk, alookup, if_neg hk]
        exact ih

theorem append_homog {bucket : List GenerationRequest}
    {request : GenerationRequest} {k : BatchKey}
    (hbk : ∀ r ∈ bucket, get_batch_key r = k) (hrk : get_batch_key request = k) :
    ∀ r ∈ bucket ++ [request], ∀ r' ∈ bucket ++ [request],
      get_batch_key r = get_batch_key r' := by
  have hall : ∀ r ∈ bucket ++ [request], get_batch_key r = k := by
    intro r hr
    rcases List.mem_append.mp hr with h | h
    · exact hbk r h
    · simp only [List.mem_singleton] at h
      exact h ▸ hrk
  intro r hr r' hr'
  rw [hall r hr, hall r' hr']

theorem add_request_result {cfg : BMConfig} {now : Nat} {batch_id : String}
    {request : GenerationRequest} {st : BMState}
    {b : BatchedGenerationRequest} {st' : BMState} (hI : BMInv st)
    (h : add_request cfg now batch_id request st = (some b, st')) :
    BatchWF b := by
  simp only [add_request] at h
  by_cases hlk : alookup (get_batch_key request) st.pending_requests = none
  · rw [if_pos hlk] at h
    simp only [alookup_ainsert_self, Option.getD_some] at h
    -- the freshly created bucket is empty, so the VRAM branch cannot fire
    rw [if_neg (by simp)] at h
    simp only [List.nil_append] at h
    split at h
    · rw [Prod.mk.injEq] at h
      exact @_create_batch_WF batch_id [request] b
        (by intro r hr r' hr'; simp only [List.mem_singleton] at hr hr';
            rw [hr, hr']) h.1
    · rw [Prod.mk.injEq] at h
      exact absurd h.1 (by simp)
  · rw [if_neg hlk] at h
    have hbk := bucket_keys hI (get_batch_key request)
    split at h
    · rw [Prod.mk.injEq] at h
      exact _create_batch_WF
        (fun r hr r' hr' => by rw [hbk r hr, hbk r' hr']) h.1
    · split at h
      · rw [Prod.mk.injEq] at h
        exact _create_batch_WF (append_homog hbk rfl) h.1
      · rw [Prod.mk.injEq] at h
        exact absurd h.1 (by simp)

theorem add_request_inv {cfg : BMConfig} {now : Nat} {batch_id : String}
    {request : GenerationRequest} {st : BMState} (hI : BMInv st) :
    BMInv (add_request cfg now batch_id request st).2 := by
  simp only [add_request]
  by_cases hlk : alookup (get_batch_key request) st.pending_requests = none
  · rw [if_pos hlk]
    simp only [alookup_ainsert_self, Option.getD_some]
    rw [if_neg (by simp)]
    simp only [List.nil_append]
    have hI1 : BMInv (BMState.mk
        (ainsert (get_batch_key request) [] st.pending_requests)
        (ainsert (get_batch_key request) now st.batch_timers)) :=
      inv_ainsert hI (by simp)
    split
    · exact inv_aerase hI1
    · exact inv_ainsert hI1 (by
        intro r hr
        simp only [List.mem_singleton] at hr
        rw [hr])
  · rw [if_neg hlk]
    have hbk := bucket_keys hI (get_batch_key request)
    split
    · exact inv_ainsert hI (by
        intro r hr
        simp only [List.mem_singleton] at hr
        rw [hr])
    · split
      · exact inv_aerase hI
      · exact inv_ainsert hI (by
          intro r hr
          rcases List.mem_append.mp hr with h | h
          · exact hbk r h
          · simp only [List.mem_singleton] at h
            rw [h])

theorem inv_pending_only {p : List (BatchKey × List GenerationRequest)}
    {t t' : List (BatchKey × Nat)} (h : BMInv (BMState.mk p t)) :
    BMInv (BMState.mk p t') :=
  fun kv hkv r hr => h kv hkv r hr

theorem foldl_aerase_inv : ∀ (ks : List BatchKey)
    (p : List (BatchKey × List GenerationRequest))
    (t : List (BatchKey × Nat)), BMInv (BMState.mk p t) →
    BMInv (BMState.mk (ks.foldl (fun m k => aerase k m) p) t) := by
  intro ks
  induction ks with
  | nil => intro p t h; exact h
  | cons k ks ih =>
      intro p t h
      simp only [List.foldl_cons]
      exact ih _ _ (inv_aerase h)

theorem check_timeouts_result {cfg : BMConfig} {now : Nat}
    {newId : BatchKey → String} {st : BMState} {b : BatchedGenerationRequest}
    (hI : BMInv st) (h : b ∈ (check_timeouts cfg now newId st).1) :
    BatchWF b := by
  simp only [check_timeouts] at h
  rw [List.mem_filterMap] at h
  obtain ⟨k, _, hcb⟩ := h
  exact _create_batch_WF
    (fun r hr r' hr' => by
      rw [bucket_keys hI k r hr, bucket_keys hI k r' hr']) hcb

theorem check_timeouts_inv {cfg : BMConfig} {now : Nat}
    {newId : BatchKey → String} {st : BMState} (hI : BMInv st) :
    BMInv (check_timeouts cfg now newId st).2 := by
  simp only [check_timeouts]
  exact foldl_aerase_inv _ _ _
    (@inv_pending_only st.pending_requests st.batch_timers _ hI)

theorem flush_pending_result {newId : BatchKey → String} {st : BMState}
    {b : BatchedGenerationRequest} (hI : BMInv st)
    (h : b ∈ (flush_pending_batches newId st).1) : BatchWF b := by
  simp only [flush_pending_batches] at h
  rw [List.mem_filterMap] at h
  obtain ⟨kv, hkv, hcb⟩ := h
  exact _create_batch_WF
    (fun r hr r' hr' => by rw [hI kv hkv r hr, hI kv hkv r' hr']) hcb

/-- C2: every `BatchedGenerationRequest` the Batch Manager constructs — on
`add_request` flushes, timeout sweeps, or shutdown flushes, starting from
any state satisfying the bucket invariant (which the empty initial state
satisfies and `add_request` preserves) — is key-homogeneous: two internal
requests land in the same batch only when their batch-key tuples agree;
in particular members never differ in `guidance_scale`, while `prompt` and
`negative_prompt` vary freely; and the `prompts`, `negative_prompts`,
`request_ids` and `seeds` arrays have equal length, in bucket-insertion
order. -/
theorem batch_manager_homogeneity (cfg : BMConfig) (now : Nat)
    (batch_id : String) (newId : BatchKey → String) (st : BMState)
    (hI : BMInv st) :
    (∀ request b st', add_request cfg now batch_id request st =
        (some b, st') → BatchWF b) ∧
    (∀ request, BMInv (add_request cfg now batch_id request st).2) ∧
    (∀ b ∈ (check_timeouts cfg now newId st).1, BatchWF b) ∧
    BMInv (check_timeouts cfg now newId st).2 ∧
    (∀ b ∈ (flush_pending_batches newId st).1, BatchWF b) ∧
    BMInv (flush_pending_batches newId st).2 ∧
    BMInv (BMState.mk [] []) ∧
    (∀ b : BatchedGenerationRequest, BatchWF b →
      b.prompts.length = b.negative_prompts.length ∧
      b.prompts.length = b.request_ids.length ∧
      ∀ sl, b.seeds = some sl → sl.length = b.prompts.length) ∧
    (∀ b : BatchedGenerationRequest, BatchWF b →
      ∃ reqs : List GenerationRequest, reqs ≠ [] ∧
        b.prompts = reqs.map (·.prompt) ∧
        b.request_ids = reqs.map (·.request_id) ∧
        ∀ r ∈ reqs, ∀ r' ∈ reqs,
          r.guidance_scale = r'.guidance_scale ∧
          get_batch_key r = get_batch_key r') := by
  refine ⟨fun request b st' h => add_request_result hI h,
    fun request => add_request_inv hI,
    fun b h => check_timeouts_result hI h,
    check_timeouts_inv hI,
    fun b h => flush_pending_result hI h,
    fun kv hkv => absurd hkv (List.not_mem_nil kv),
    fun kv hkv => absurd hkv (List.not_mem_nil kv),
    ?_, ?_⟩
  · intro b hb
    obtain ⟨reqs, _, hp, hnp, hid, hsd, _, _⟩ := hb
    refine ⟨by rw [hp, hnp]; simp, by rw [hp, hid]; simp, ?_⟩
    intro sl hsl
    rw [hsd] at hsl
    injection hsl with hsl
    rw [← hsl, hp]
    simp
  · intro b hb
    obtain ⟨reqs, hne, hp, _, hid, _, hhom, _⟩ := hb
    exact ⟨reqs, hne, hp, hid, fun r hr r' hr' =>
      ⟨(batch_key_fields (hhom r hr r' hr')).2.2.1, hhom r hr r' hr'⟩⟩

/-- C2, witness: with `MAX_BATCH_SIZE = 1` a first request is flushed into
a singleton batch, which is well-formed. -/
theorem batch_manager_homogeneity_witness :
    add_request (BMConfig.mk 4194304 1 500) 0 "b0"
      { request_id := "r1", prompt := "p", negative_prompt := none,
        width := 512, height := 512, guidance_scale := 5,
        num_inference_steps := 50, num_images := 1, stream := false,
        seed := some 7 }
      (BMState.mk [] []) =
      (some
        { batch_id := "b0", prompts := ["p"], negative_prompts := [none],
          request_ids := ["r1"], num_images := 1, width := 512,
          height := 512, guidance_scale := 5, num_inference_steps := 50,
          stream := false, seeds := some [some 7] },
       BMState.mk [] []) ∧
    BatchWF
      { batch_id := "b0", prompts := ["p"], negative_prompts := [none],
        request_ids := ["r1"], num_images := 1, width := 512,
        height := 512, guidance_scale := 5, num_inference_steps := 50,
        stream := false, seeds := some [some 7] } := by
  refine ⟨by decide, ?_⟩
  exact (batch_manager_homogeneity (BMConfig.mk 4194304 1 500) 0 "b0"
    (fun _ => "t") (BMState.mk [] [])
    (fun kv hkv => absurd hkv (List.not_mem_nil kv))).1
    { request_id := "r1", prompt := "p", negative_prompt := none,
      width := 512, height := 512, guidance_scale := 5,
      num_inference_steps := 50, num_images := 1, stream := false,
      seed := some 7 }
    { batch_id := "b0", prompts := ["p"], negative_prompts := [none],
      request_ids := ["r1"], num_images := 1, width := 512,
      height := 512, guidance_scale := 5, num_inference_steps := 50,
      stream := false, seeds := some [some 7] }
    (BMState.mk [] []) (by decide)

/-- C4: for a non-streaming batched request (well-formed, as the Batch
Manager constructs them) whose pipeline invocation returns one image list
of length `k * n_per_request`, the worker emits exactly one `completed`
event per originating request id, in order; the event at position `i`
carries exactly `n_per_request` images — the `i`-th contiguous slice of
the pipeline's image list — plus a seed; and for every member submitted
with a fixed (non-null) seed the reported seed equals that input seed.
The final conjunct covers the single non-streaming path the same way. -/
theorem batched_non_streaming_events {Img : Type} (enc : Img → String)
    (t : Nat) (b : BatchedGenerationRequest) (imgs : List Img)
    (r : GenerationRequest) (rimgs : List Img) (sfix : Int)
    (hWF : BatchWF b)
    (hlen : imgs.length = b.request_ids.length * b.num_images) :
    (process_batched_non_streaming_request enc t b (.ok imgs)).length =
      b.request_ids.length ∧
    (∃ s0, (resolveSeeds t b).head? = some s0 ∧
      (∀ i rid, b.request_ids[i]? = some rid →
        (process_batched_non_streaming_request enc t b (.ok imgs))[i]? =
          some ⟨rid, .completed
            (((imgs.drop (i * b.num_images)).take b.num_images).map enc)
            s0⟩ ∧
        ((imgs.drop (i * b.num_images)).take b.num_images).length =
          b.num_images) ∧
      (∀ (sl : List (Option Int)) (i : Nat) (s1 : Int), b.seeds = some sl →
        sl[i]? = some (some s1) → s0 = s1)) ∧
    (b.request_ids.Nodup → ∀ rid ∈ b.request_ids,
      ((process_batched_non_streaming_request enc t b (.ok imgs)).filter
        (fun e => e.request_id == rid)).length = 1) ∧
    (r.seed = some sfix →
      process_non_streaming_request enc t r (.ok rimgs) =
        [⟨r.request_id, .completed (rimgs.map enc) sfix⟩]) := by
  obtain ⟨reqs, hne, hp, hnp, hid, hsd, hhom, _⟩ := hWF
  have hslhom : ∀ x ∈ reqs.map (·.seed), ∀ y ∈ reqs.map (·.seed), x = y := by
    intro x hx y hy
    rw [List.mem_map] at hx hy
    obtain ⟨rx, hrx, rfl⟩ := hx
    obtain ⟨ry, hry, rfl⟩ := hy
    exact (batch_key_fields (hhom rx hrx ry hry)).2.2.2.2.2.2
  rcases reqs with _ | ⟨r0, rtl⟩
  · exact absurd rfl hne
  have hres : resolveSeeds t b =
      ((r0.seed :: rtl.map (·.seed)).enum.map
        (fun p => p.2.getD (((t + p.1) % 2 ^ 32 : Nat) : Int))) := by
    simp only [resolveSeeds, hsd, List.map_cons]
  have hhead : (resolveSeeds t b).head? =
      some (r0.seed.getD (((t + 0) % 2 ^ 32 : Nat) : Int)) := by
    rw [hres]; rfl
  have hevs : process_batched_non_streaming_request enc t b (.ok imgs) =
      b.request_ids.enum.map (fun p =>
        ⟨p.2, .completed
          (((imgs.drop (p.1 * b.num_images)).take b.num_images).map enc)
          (r0.seed.getD (((t + 0) % 2 ^ 32 : Nat) : Int))⟩) := by
    simp only [process_batched_non_streaming_request, hhead]
  refine ⟨?_, ⟨r0.seed.getD (((t + 0) % 2 ^ 32 : Nat) : Int), hhead, ?_, ?_⟩,
    ?_, ?_⟩
  · rw [hevs]
    simp [List.enum_length]
  · intro i rid hi
    have hik : i < b.request_ids.length := by
      rcases List.getElem?_eq_some.mp hi with ⟨hlt, _⟩
      exact hlt
    constructor
    · rw [hevs, List.getElem?_map, List.getElem?_enum, hi]
      rfl
    · rw [List.length_take, List.length_drop, hlen]
      have hmul : i * b.num_images + b.num_images ≤
          b.request_ids.length * b.num_images := by
        have h1 : (i + 1) * b.num_images ≤
            b.request_ids.length * b.num_images :=
          Nat.mul_le_mul_right _ (Nat.succ_le_of_lt hik)
        rw [Nat.succ_mul] at h1
        exact h1
      exact Nat.min_eq_left (by omega)
  · intro sl i s1 hsl hi
    rw [hsd] at hsl
    injection hsl with hsl
    subst hsl
    have hmem : (some s1) ∈ (r0 :: rtl).map (·.seed) := List.getElem?_mem hi
    have hmem0 : r0.seed ∈ (r0 :: rtl).map (·.seed) := by simp
    have heq := hslhom _ hmem _ hmem0
    rw [← heq]
    rfl
  · intro hnd rid hrid
    have hmapids : (process_batched_non_streaming_request enc t b
        (.ok imgs)).map (·.request_id) = b.request_ids := by
      rw [hevs, List.map_map]
      exact List.enum_map_snd b.request_ids
    calc ((process_batched_non_streaming_request enc t b (.ok imgs)).filter
          (fun e => e.request_id == rid)).length
        = (process_batched_non_streaming_request enc t b (.ok imgs)).countP
            (fun e => e.request_id == rid) :=
          (List.countP_eq_length_filter _ _).symm
      _ = ((process_batched_non_streaming_request enc t b (.ok imgs)).map
            (·.request_id)).countP (· == rid) := by
          rw [List.countP_map]; rfl
      _ = b.request_ids.countP (· == rid) := by rw [hmapids]
      _ = b.request_ids.count rid :=
          (List.count_eq_countP rid b.request_ids).symm
      _ = 1 := List.count_eq_one_of_mem hnd hrid
  · intro hs
    simp [process_non_streaming_request, hs]

/-- C4, witness: a two-member batch with one image per member; the worker
emits two completed events. -/
theorem batched_non_streaming_events_witness :
    (process_batched_non_streaming_request (fun n : Nat => toString n) 0
      { batch_id := "b0", prompts := ["p", "q"],
        negative_prompts := [none, none], request_ids := ["r1", "r2"],
        num_images := 1, width := 512, height := 512, guidance_scale := 5,
        num_inference_steps := 50, stream := false,
        seeds := some [some 7, some 7] }
      (.ok [10, 20])).length = 2 :=
  (batched_non_streaming_events (fun n : Nat => toString n) 0 _ [10, 20]
    { request_id := "r9", prompt := "z", negative_prompt := none,
      width := 512, height := 512, guidance_scale := 5,
      num_inference_steps := 50, num_images := 1, stream := false,
      seed := some 7 }
    [] 7
    ⟨[{ request_id := "r1", prompt := "p", negative_prompt := none,
        width := 512, height := 512, guidance_scale := 5,
        num_inference_steps := 50, num_images := 1, stream := false,
        seed := some 7 },
      { request_id := "r2", prompt := "q", negative_prompt := none,
        width := 512, height := 512, guidance_scale := 5,
        num_inference_steps := 50, num_images := 1, stream := false,
        seed := some 7 }], by decide⟩
    (by decide)).1

theorem slice_take_eq {α : Type} (m ci : Nat) (s : List α) :
    (s.drop (ci * m)).take (min ((ci + 1) * m) s.length - ci * m) =
    (s.drop (ci * m)).take m := by
  rcases le_or_lt ((ci + 1) * m) s.length with h | h
  · rw [Nat.min_eq_left h]
    congr 1
    rw [Nat.succ_mul]
    omega
  · rw [Nat.min_eq_right (le_of_lt h)]
    have hlen : (s.drop (ci * m)).length = s.length - ci * m :=
      List.length_drop _ _
    rw [List.take_of_length_le (le_of_eq hlen),
        List.take_of_length_le (by
          rw [hlen]
          rw [Nat.succ_mul] at h
          omega)]

theorem flatten_chunks {α : Type} (m : Nat) (hm : 0 < m) :
    ∀ (s : List α), ((List.range ((s.length + m - 1) / m)).map
      (fun ci => (s.drop (ci * m)).take m)).flatten = s := by
  suffices H : ∀ (n : Nat) (s : List α), s.length ≤ n →
      ((List.range ((s.length + m - 1) / m)).map
        (fun ci => (s.drop (ci * m)).take m)).flatten = s by
    exact fun s => H s.length s le_rfl
  intro n
  induction n with
  | zero =>
      intro s hs
      have hnil : s = [] := List.eq_nil_of_length_eq_zero (Nat.le_zero.mp hs)
      subst hnil
      rw [show (([] : List α).length + m - 1) / m = 0 from
        Nat.div_eq_of_lt (by simp; omega)]
      rfl
  | succ n ih =>
      intro s hs
      by_cases hnil : s = []
      · subst hnil
        rw [show (([] : List α).length + m - 1) / m = 0 from
          Nat.div_eq_of_lt (by simp; omega)]
        rfl
      · have hlen1 : 1 ≤ s.length := List.length_pos.mpr hnil
        have hk : (s.length + m - 1) / m = (s.length - 1) / m + 1 := by
          rw [show s.length + m - 1 = (s.length - 1) + m from by omega,
            Nat.add_div_right _ hm]
        have hlen' : (s.drop m).length = s.length - m := List.length_drop m s
        have hk' : (s.length - 1) / m = ((s.drop m).length + m - 1) / m := by
          rcases le_or_lt s.length m with h | h
          · rw [Nat.div_eq_of_lt (by omega), hlen',
              show s.length - m = 0 from by omega,
              Nat.div_eq_of_lt (by omega)]
          · rw [hlen', show s.length - m + m - 1 = s.length - 1 from by omega]
        have hcomp : ((List.range (((s.drop m).length + m - 1) / m)).map
            Nat.succ).map (fun ci => (s.drop (ci * m)).take m) =
            (List.range (((s.drop m).length + m - 1) / m)).map
              (fun ci => ((s.drop m).drop (ci * m)).take m) := by
          rw [List.map_map]
          refine List.map_congr_left ?_
          intro ci _
          simp only [Function.comp]
          rw [List.drop_drop, Nat.succ_mul, Nat.add_comm]
        rw [hk, hk', List.range_succ_eq_map, List.map_cons,
          List.flatten_cons, Nat.zero_mul, List.drop_zero, hcomp,
          ih (s.drop m) (by rw [hlen']; omega)]
        exact List.take_append_drop m s

theorem digitChar_isDigit {d : Nat} (h : d < 10) :
    (Nat.digitChar d).isDigit = true := by
  interval_cases d <;> decide

theorem digitChar_inj_lt {d1 d2 : Nat} (h1 : d1 < 10) (h2 : d2 < 10) :
    Nat.digitChar d1 = Nat.digitChar d2 → d1 = d2 := by
  interval_cases d1 <;> interval_cases d2 <;> decide

theorem natChars_isDigit {n : Nat} : ∀ c ∈ natChars n, c.isDigit = true := by
  intro c hc
  unfold natChars at hc
  by_cases hn : n = 0
  · rw [if_pos hn] at hc
    simp only [List.mem_singleton] at hc
    rw [hc]
    decide
  · rw [if_neg hn] at hc
    rw [List.mem_reverse, List.mem_map] at hc
    obtain ⟨d, hd, rfl⟩ := hc
    exact digitChar_isDigit (Nat.digits_lt_base (by norm_num) hd)

theorem underscore_not_mem_natChars (n : Nat) : '_' ∉ natChars n := by
  intro h
  exact absurd (natChars_isDigit '_' h) (by decide)

theorem map_digitChar_inj : ∀ {l1 l2 : List Nat}, (∀ d ∈ l1, d < 10) →
    (∀ d ∈ l2, d < 10) → l1.map Nat.digitChar = l2.map Nat.digitChar →
    l1 = l2 := by
  intro l1
  induction l1 with
  | nil =>
      intro l2 _ _ h
      cases l2 with
      | nil => rfl
      | cons d ds => exact absurd h (by simp)
  | cons d1 ds1 ih =>
      intro l2 h1 h2 h
      cases l2 with
      | nil => exact absurd h (by simp)
      | cons d2 ds2 =>
          simp only [List.map_cons, List.cons.injEq] at h
          rw [digitChar_inj_lt (h1 d1 (by simp)) (h2 d2 (by simp)) h.1,
            ih (fun d hd => h1 d (by simp [hd]))
              (fun d hd => h2 d (by simp [hd])) h.2]

theorem natChars_inj : ∀ {a b : Nat}, natChars a = natChars b → a = b := by
  have key : ∀ {n : Nat}, n ≠ 0 → natChars n ≠ ['0'] := by
    intro n hn h
    unfold natChars at h
    rw [if_neg hn] at h
    have h' := congrArg List.reverse h
    rw [List.reverse_reverse] at h'
    rcases hdig : Nat.digits 10 n with _ | ⟨d, ds⟩
    · rw [hdig] at h'; exact absurd h' (by simp)
    · rw [hdig] at h'
      simp only [List.map_cons, List.reverse_cons] at h'
      have hlen := congrArg List.length h'
      simp only [List.length_map, List.length_cons, List.length_reverse,
        List.length_append, List.length_singleton] at hlen
      have hds : ds = [] := by
        cases ds with
        | nil => rfl
        | cons x xs => simp at hlen
      subst hds
      simp only [List.map_nil, List.reverse_nil, List.nil_append,
        List.cons.injEq] at h'
      have hd0 : d = 0 :=
        digitChar_inj_lt
          (Nat.digits_lt_base (by norm_num) (hdig ▸ List.mem_cons_self d []))
          (by norm_num) h'.1
      have : n = 0 := by
        have := Nat.ofDigits_digits 10 n
        rw [hdig, hd0] at this
        simpa [Nat.ofDigits] using this.symm
      exact hn this
  intro a b h
  unfold natChars at h
  by_cases ha : a = 0 <;> by_cases hb : b = 0
  · rw [ha, hb]
  · rw [if_pos ha, if_neg hb] at h
    exact absurd (by rw [natChars, if_neg hb, ← h] : natChars b = ['0'])
      (key hb)
  · rw [if_neg ha, if_pos hb] at h
    exact absurd (by rw [natChars, if_neg ha, h] : natChars a = ['0'])
      (key ha)
  · rw [if_neg ha, if_neg hb] at h
    have h' := congrArg List.reverse h
    simp only [List.reverse_reverse] at h'
    have hdig := map_digitChar_inj
      (fun d hd => Nat.digits_lt_base (by norm_num) hd)
      (fun d hd => Nat.digits_lt_base (by norm_num) hd) h'
    rw [← Nat.ofDigits_digits 10 a, ← Nat.ofDigits_digits 10 b, hdig]

theorem append_underscore_inj : ∀ {a1 : List Char} {a2 b1 b2 : List Char},
    '_' ∉ a1 → '_' ∉ a2 → a1 ++ '_' :: b1 = a2 ++ '_' :: b2 →
    a1 = a2 ∧ b1 = b2 := by
  intro a1
  induction a1 with
  | nil =>
      intro a2 b1 b2 _ h2 h
      cases a2 with
      | nil =>
          simp only [List.nil_append, List.cons.injEq] at h
          exact ⟨rfl, h.2⟩
      | cons c a2' =>
          simp only [List.nil_append, List.cons_append,
            List.cons.injEq] at h
          exact absurd (h.1 ▸ List.mem_cons_self c a2') h2
  | cons c a1' ih =>
      intro a2 b1 b2 h1 h2 h
      cases a2 with
      | nil =>
          simp only [List.cons_append, List.nil_append,
            List.cons.injEq] at h
          exact absurd (h.1.symm ▸ List.mem_cons_self c a1') h1
      | cons c2 a2' =>
          simp only [List.cons_append, List.cons.injEq] at h
          obtain ⟨hc, hrest⟩ := h
          obtain ⟨ha, hb⟩ := ih (fun hm => h1 (List.mem_cons_of_mem c hm))
            (fun hm => h2 (List.mem_cons_of_mem c2 hm)) hrest
          exact ⟨by rw [hc, ha], hb⟩

theorem chunkId_inj {r1 r2 : String} {st1 st2 i1 i2 ts1 ts2 : Nat}
    (h1 : '_' ∉ r1.toList) (h2 : '_' ∉ r2.toList)
    (h : chunkId r1 st1 i1 ts1 = chunkId r2 st2 i2 ts2) :
    r1 = r2 ∧ st1 = st2 ∧ i1 = i2 ∧ ts1 = ts2 := by
  unfold chunkId at h
  rw [show "_step_".toList = '_' :: "step_".toList from rfl,
    show "_img_".toList = '_' :: "img_".toList from rfl,
    show "_".toList = ['_'] from rfl] at h
  simp only [List.append_assoc, List.cons_append, List.singleton_append,
    List.nil_append] at h
  obtain ⟨hr, h⟩ := append_underscore_inj h1 h2 h
  rw [show "step_".toList = 's' :: 't' :: 'e' :: 'p' :: ['_'] from rfl] at h
  simp only [List.cons_append, List.singleton_append,
    List.cons.injEq, true_and] at h
  obtain ⟨hst, h⟩ := append_underscore_inj
    (underscore_not_mem_natChars st1) (underscore_not_mem_natChars st2) h
  rw [show "img_".toList = 'i' :: 'm' :: 'g' :: ['_'] from rfl] at h
  simp only [List.cons_append, List.singleton_append,
    List.cons.injEq, true_and] at h
  obtain ⟨hi, hts⟩ := append_underscore_inj
    (underscore_not_mem_natChars i1) (underscore_not_mem_natChars i2) h
  exact ⟨String.ext hr, natChars_inj hst, natChars_inj hi, natChars_inj hts⟩

theorem filterMap_comp_some {α β : Type} (l : List α) (f : α → β) :
    l.filterMap (fun x => some (f x)) = l.map f := by
  induction l with
  | nil => rfl
  | cons x xs ih => simp [List.filterMap_cons, ih]

theorem send_chunked_image_to_rid {rid : String} {seed : Option Int}
    {nsteps nimgs ts : Nat} {s : PyStr} {step_index : Nat} {is_final : Bool}
    {image_idx maxsz : Nat} :
    ∀ e ∈ send_chunked_image_to rid seed nsteps nimgs ts s step_index
      is_final image_idx maxsz, e.request_id = rid := by
  intro e he
  unfold send_chunked_image_to at he
  by_cases h : s.length ≤ maxsz
  · rw [if_pos h] at he
    simp only [List.mem_singleton] at he
    rw [he]
  · rw [if_neg h] at he
    rw [List.mem_map] at he
    obtain ⟨j, _, rfl⟩ := he
    rfl

theorem filter_flatMap {β : Type} (l : List String)
    (f : String → List β) (p : β → Bool) :
    (l.flatMap f).filter p = l.flatMap (fun x => (f x).filter p) := by
  induction l with
  | nil => rfl
  | cons x xs ih => simp [List.flatMap_cons, List.filter_append, ih]

theorem flatMap_single {β : Type} :
    ∀ {l : List String} {g : String → List β} {rid : String}, l.Nodup →
    rid ∈ l → (∀ r ∈ l, r ≠ rid → g r = []) → l.flatMap g = g rid := by
  intro l
  induction l with
  | nil => intro g rid _ hm _; exact absurd hm (List.not_mem_nil rid)
  | cons x xs ih =>
      intro g rid hnd hm hz
      rw [List.flatMap_cons]
      by_cases hx : x = rid
      · subst hx
        have hrest : xs.flatMap g = [] := by
          rw [List.flatMap_eq_nil_iff]
          intro r hr
          exact hz r (List.mem_cons_of_mem x hr)
            (fun heq => (List.nodup_cons.mp hnd).1 (heq ▸ hr))
        rw [hrest, List.append_nil]
      · rw [hz x (List.mem_cons_self x xs) hx, List.nil_append]
        exact ih (List.nodup_cons.mp hnd).2
          ((List.mem_cons.mp hm).resolve_left (fun heq => hx heq.symm))
          (fun r hr => hz r (List.mem_cons_of_mem x hr))

/-- C5: for every base64 payload `s` of a streaming step and every
recipient: when `len(s)` does not exceed the 400 KiB `max_chunk_size`,
exactly one event with `is_chunked=false` carrying `s` is emitted per
recipient; otherwise the per-recipient emission is exactly
`⌈len(s)/max_chunk_size⌉` events sharing one `chunk_id` — a string that
injectively encodes the (request, step, image) triple — whose
`chunk_index` fields cover `[0, total_chunks-1]` in order without repeats,
and whose `image` fields concatenated in that order reconstruct `s`; the
full emission routes exactly that per-recipient list to each distinct
non-empty recipient id. -/
theorem send_chunked_image_contract (rid : String) (seed : Option Int)
    (nsteps nimgs ts : Nat) (s : PyStr) (step_index : Nat)
    (is_final : Bool) (image_idx maxsz : Nat) (hmax : 0 < maxsz) :
    (s.length ≤ maxsz →
      send_chunked_image_to rid seed nsteps nimgs ts s step_index is_final
        image_idx maxsz =
      [⟨rid, .streamingStep
        { step := step_index
          progress := ((step_index : Rat) + 1) / (nsteps : Rat)
          image := s, is_final := is_final, is_chunked := false
          chunk_id := none, chunk_index := none, total_chunks := none
          image_index := image_idx, total_images := nimgs
          seed := seed }⟩]) ∧
    (maxsz < s.length →
      send_chunked_image_to rid seed nsteps nimgs ts s step_index is_final
        image_idx maxsz =
      (List.range ((s.length + maxsz - 1) / maxsz)).map (fun j =>
        ⟨rid, .streamingStep
          { step := step_index
            progress := ((step_index : Rat) + 1) / (nsteps : Rat)
            image := (s.drop (j * maxsz)).take maxsz
            is_final := is_final, is_chunked := true
            chunk_id := some (chunkId rid step_index image_idx ts)
            chunk_index := some j
            total_chunks := some ((s.length + maxsz - 1) / maxsz)
            image_index := image_idx, total_images := nimgs
            seed := seed }⟩)) ∧
    (maxsz < s.length →
      (send_chunked_image_to rid seed nsteps nimgs ts s step_index is_final
          image_idx maxsz).length = (s.length + maxsz - 1) / maxsz ∧
      (send_chunked_image_to rid seed nsteps nimgs ts s step_index is_final
          image_idx maxsz).filterMap (fun e =>
            match e.payload with
            | .streamingStep d => d.chunk_index
            | _ => none) =
        List.range ((s.length + maxsz - 1) / maxsz) ∧
      ((send_chunked_image_to rid seed nsteps nimgs ts s step_index is_final
          image_idx maxsz).filterMap (fun e =>
            match e.payload with
            | .streamingStep d => some d.image
            | _ => none)).flatten = s) ∧
    (∀ rids : List String, rids.Nodup → rid ∈ rids → rid ≠ "" →
      (send_chunked_image rids seed nsteps nimgs ts s step_index is_final
          image_idx).filter (fun e => e.request_id == rid) =
        send_chunked_image_to rid seed nsteps nimgs ts s step_index
          is_final image_idx MAX_CHUNK_SIZE) ∧
    (∀ (r2 : String) (st2 i2 ts2 : Nat), '_' ∉ rid.toList →
      '_' ∉ r2.toList →
      chunkId rid step_index image_idx ts = chunkId r2 st2 i2 ts2 →
      rid = r2 ∧ step_index = st2 ∧ image_idx = i2 ∧ ts = ts2) := by
  have hlong : maxsz < s.length →
      send_chunked_image_to rid seed nsteps nimgs ts s step_index is_final
        image_idx maxsz =
      (List.range ((s.length + maxsz - 1) / maxsz)).map (fun j =>
        ⟨rid, .streamingStep
          { step := step_index
            progress := ((step_index : Rat) + 1) / (nsteps : Rat)
            image := (s.drop (j * maxsz)).take maxsz
            is_final := is_final, is_chunked := true
            chunk_id := some (chunkId rid step_index image_idx ts)
            chunk_index := some j
            total_chunks := some ((s.length + maxsz - 1) / maxsz)
            image_index := image_idx, total_images := nimgs
            seed := seed }⟩) := by
    intro h
    unfold send_chunked_image_to
    rw [if_neg (not_le.mpr h)]
    refine List.map_congr_left ?_
    intro j _
    simp only [slice_take_eq]
  refine ⟨?_, hlong, ?_, ?_, ?_⟩
  · intro h
    unfold send_chunked_image_to
    rw [if_pos h]
  · intro h
    refine ⟨?_, ?_, ?_⟩
    · rw [hlong h]
      simp
    · rw [hlong h, List.filterMap_map]
      exact List.filterMap_some _
    · rw [hlong h, List.filterMap_map]
      exact (congrArg List.flatten (filterMap_comp_some _ _)).trans
        (flatten_chunks maxsz hmax s)
  · intro rids hnd hm hne
    unfold send_chunked_image
    rw [filter_flatMap]
    rw [flatMap_single hnd hm ?hz]
    case hz =>
      intro r _ hr
      by_cases hre : r = ""
      · rw [if_pos hre]
        rfl
      · rw [if_neg hre]
        rw [List.filter_eq_nil_iff]
        intro e he
        rw [send_chunked_image_to_rid e he]
        simpa using hr
    rw [if_neg hne]
    rw [List.filter_eq_self.mpr]
    intro e he
    rw [send_chunked_image_to_rid e he]
    simp
  · intro r2 st2 i2 ts2 h1 h2 h
    exact chunkId_inj h1 h2 h

/-- C5, witness: a 7-character payload with a 3-character cap splits into
three chunks that concatenate back to the payload. -/
theorem send_chunked_image_contract_witness :
    3 < ("abcdefg".toList : PyStr).length ∧
    (send_chunked_image_to "r" none 10 1 7 "abcdefg".toList 2 false 0
        3).length = 3 ∧
    ((send_chunked_image_to "r" none 10 1 7 "abcdefg".toList 2 false 0
        3).filterMap (fun e =>
          match e.payload with
          | .streamingStep d => some d.image
          | _ => none)).flatten = "abcdefg".toList := by
  have h := (send_chunked_image_contract "r" none 10 1 7 "abcdefg".toList 2
    false 0 3 (by decide)).2.2.1 (by decide)
  exact ⟨by decide, h.1, h.2.2⟩

/-- C6: the claim of exactly one terminal event per execution fails on the
code.  In an execution where the step callback's outer exception handler
fires (it queues an `error` event and then returns normally, so the
pipeline invocation continues and completes), the worker emits an `error`
event followed by a `completed` event for the same request id — two
terminal events, with the error not last. -/
theorem streaming_double_terminal :
    process_streaming_request "r1"
      [.callbackError "step callback failure"] none =
      [⟨"r1", .error "step callback failure"⟩, ⟨"r1", .completedNone⟩] ∧
    ((process_streaming_request "r1"
        [.callbackError "step callback failure"] none).filter
      (fun e => e.isTerminal)).length = 2 :=
  ⟨rfl, rfl⟩

/-- C8, counterexample: when every external LLM attempt fails, the endpoint
reports `success := true` for a non-blank prompt (the claim requires
`success = false` on LLM error), and for a prompt with redundant
whitespace the returned "optimized" prompt is the cleaned original, which
differs from the original. -/
theorem optimize_prompt_llm_failure_counterexample :
    (optimize_prompt "hi".toList false
      (List.replicate 5 .raised)).success = true ∧
    (optimize_prompt "  hi   there ".toList false
        (List.replicate 5 .raised)).optimized_prompt = "hi there".toList ∧
    ("hi there".toList : PyStr) ≠ "  hi   there ".toList :=
  ⟨rfl, rfl, by decide⟩

theorem convert_prompt_loop_raised :
    ∀ (attempts : List LLMAttempt) (p : Option PyStr),
      (∀ a ∈ attempts, a = .raised) →
      convert_prompt_loop attempts p = p := by
  intro attempts
  induction attempts with
  | nil => intro p _; rfl
  | cons a rest ih =>
      intro p h
      have ha : a = .raised := h a (List.mem_cons_self a rest)
      subst ha
      rw [convert_prompt_loop]
      exact ih p (fun a ha => h a (List.mem_cons_of_mem _ ha))

/-- C8, amended: `POST /v1/prompt/optimize` never fails hard — every input
yields a well-formed `{original, optimized, success, message}` response
with `original_prompt` equal to the input.  When `convert_prompt` itself
raises (the client construction, the only statement outside its swallowing
retry loop), the original is returned with `success = false`.  But when
the external LLM calls fail (every retry raises), the endpoint returns the
*cleaned* original prompt and reports `success = true` whenever that
cleaned prompt is non-blank; only a blank result yields the original with
`success = false`. -/
theorem optimize_prompt_amended (p : PyStr) (attempts : List LLMAttempt)
    (hAll : ∀ a ∈ attempts, a = .raised) :
    (optimize_prompt p true attempts).original_prompt = p ∧
    (optimize_prompt p true attempts).optimized_prompt = p ∧
    (optimize_prompt p true attempts).success = false ∧
    (optimize_prompt p false attempts).original_prompt = p ∧
    ((clean_string p ≠ [] ∧ stripWs (clean_string p) ≠ []) →
      (optimize_prompt p false attempts).optimized_prompt =
        clean_string p ∧
      (optimize_prompt p false attempts).success = true) ∧
    (¬(clean_string p ≠ [] ∧ stripWs (clean_string p) ≠ []) →
      (optimize_prompt p false attempts).optimized_prompt = p ∧
      (optimize_prompt p false attempts).success = false) := by
  have hconv : convert_prompt p attempts = some (clean_string p) :=
    convert_prompt_loop_raised attempts _ hAll
  have hopt : optimize_prompt p false attempts =
      (if clean_string p ≠ [] ∧ stripWs (clean_string p) ≠ [] then
        { original_prompt := p, optimized_prompt := clean_string p,
          success := true, message := "Prompt optimized successfully" }
      else
        { original_prompt := p, optimized_prompt := p, success := false,
          message := "Failed to optimize prompt - empty result" }) := by
    unfold optimize_prompt
    rw [if_neg (by simp), hconv]
  refine ⟨rfl, rfl, rfl, ?_, ?_, ?_⟩
  · rw [hopt]
    split <;> rfl
  · intro hc
    rw [hopt, if_pos hc]
    exact ⟨rfl, rfl⟩
  · intro hc
    rw [hopt, if_neg hc]
    exact ⟨rfl, rfl⟩

/-- C8, witness: prompt `"hi"` with one failing LLM attempt yields
`success = true` and the cleaned prompt `"hi"` back. -/
theorem optimize_prompt_amended_witness :
    (optimize_prompt "hi".toList false [.raised]).optimized_prompt =
      clean_string "hi".toList ∧
    (optimize_prompt "hi".toList false [.raised]).success = true := by
  have h := (optimize_prompt_amended "hi".toList [.raised]
    (by intro a ha; simpa using ha)).2.2.2.2.1 (by decide)
  exact h

/-- C9: in `save_to_gallery`, when rewriting the index JSON (step 6) fails
after the image file was written (step 3), the compensating `os.remove`
deletes the image file and the operation returns HTTP 500: a failed save
leaves neither an index entry for the new image nor the image file
behind. -/
theorem save_to_gallery_compensation (request : SaveGalleryRequest)
    (now : Nat) (randomSeed : Int) (isJpeg : Bool) (st : GalleryFS)
    (hidx : st.index ≠ .corrupt) :
    (save_to_gallery request now randomSeed true isJpeg true false st).1 =
      .httpError 500 ∧
    ((if isJpeg then "image-" ++ toString now ++ ".jpg"
      else "image-" ++ toString now ++ ".png") ∉
      (save_to_gallery request now randomSeed true isJpeg true false
        st).2.imageFiles) ∧
    (∀ u : String, indexHasUrl u
      (save_to_gallery request now randomSeed true isJpeg true false
        st).2.index = false) := by
  unfold save_to_gallery
  rw [if_neg (by simp), if_neg (by simp)]
  rcases hst : st.index with _ | es | _
  · simp only [hst]
    rw [if_neg (by simp)]
    refine ⟨rfl, ?_, fun u => rfl⟩
    intro hmem
    have := (List.mem_filter.mp hmem).2
    simp at this
  · simp only [hst]
    rw [if_neg (by simp)]
    refine ⟨rfl, ?_, fun u => rfl⟩
    intro hmem
    have := (List.mem_filter.mp hmem).2
    simp at this
  · exact absurd hst hidx

/-- C9, witness: a concrete failed index rewrite on an empty gallery
returns 500 and leaves no image file. -/
theorem save_to_gallery_compensation_witness :
    (save_to_gallery
      { image_data := "aGk=", prompt := "p", size := "512x512",
        negative_prompt := "", seed := some 3, guidance_scale := 5,
        num_inference_steps := 20 } 5 1 true false true false
      (GalleryFS.mk [] .missing)).1 = .httpError 500 ∧
    ("image-5.png" ∉ (save_to_gallery
      { image_data := "aGk=", prompt := "p", size := "512x512",
        negative_prompt := "", seed := some 3, guidance_scale := 5,
        num_inference_steps := 20 } 5 1 true false true false
      (GalleryFS.mk [] .missing)).2.imageFiles) := by
  have h := save_to_gallery_compensation
    { image_data := "aGk=", prompt := "p", size := "512x512",
      negative_prompt := "", seed := some 3, guidance_scale := 5,
      num_inference_steps := 20 } 5 1 false (GalleryFS.mk [] .missing)
    (by simp)
  exact ⟨h.1, h.2.1⟩

end CogView4
